import Mathlib

/-! Formal model of `libcodechecker/server/session_manager.py`: authentication
session management for the CodeChecker server.

Modelling conventions:
* timestamps are `Int` seconds; every call of `datetime.now()` inside one
  Python method is modelled by a single explicit `now : Int` argument;
* the SQLAlchemy-backed durable store is an explicit `Db` value; a connected
  store can be in a `failing` mode in which every query/commit/delete raises
  (the exception is then caught exactly where the Python code catches it);
  `Db.noconn` models `self.__database_connection is None`;
* Python exceptions that escape a method are modelled with `Except PyErr`;
  `TypeError` models `len(None)`, `ValueError` models tuple-unpacking of a
  `split` result of the wrong length;
* the external oracles (`hashlib.sha256(...).hexdigest()`, `cc_pam.auth_user`,
  `cc_ldap.auth_user`, `cc_ldap.get_groups`) are function-valued fields of the
  manager state, so theorems quantify over their behaviour;
* `str.split(sep)` and `';'.join(...)` are re-implemented structurally on
  `List Char` (`py_split`, `join_groups`) with Python's exact semantics for a
  one-character separator;
* a `_Session` object's private `__database` reference always coincides with
  the manager's connection in the scenarios modelled here (the connection is
  never re-set mid-run), so `revalidate`'s durable-store update is expressed
  against the manager's `Db` value.
-/

namespace CodeChecker

/-- Python exceptions that can escape the modelled methods. -/
inductive PyErr where
  | typeError
  | valueError
  deriving DecidableEq

/-- The validation dict returned by the `__try_auth_*` methods.  The Python
dicts do not always carry the `groups` / `root` keys; `create_or_get_session`
reads them with `.get(..., default)`, hence the `Option` fields. -/
structure PyValidation where
  username : String
  groups? : Option (List String)
  root? : Option Bool
  deriving DecidableEq

/-- `_Session`: a session for an authenticated client connection. -/
structure Session where
  token : String
  user : String
  groups : List String
  session_lifetime : Int
  is_root : Bool
  last_access : Int
  deriving DecidableEq

/-- `_Session.is_alive`: within lifetime iff
`(datetime.now() - self.last_access).total_seconds() <= self.__session_lifetime`. -/
def Session.is_alive (now : Int) (s : Session) : Bool :=
  decide (now - s.last_access ≤ s.session_lifetime)

/-- A row of the durable `Session` table
(`database.config_db_model.Session`): token, user name, `';'`-joined group
string, last-access timestamp. -/
structure SessionRecord where
  token : String
  user_name : String
  groups : String
  last_access : Int
  deriving DecidableEq

/-- The durable store contents: the `Session` table and the names present in
the `SystemPermission` table. -/
structure DbState where
  sessions : List SessionRecord
  system_permissions : List String
  deriving DecidableEq

/-- The durable-store connection of the manager.  `noconn` models
`self.__database_connection is None`; `conn failing st` models a connected
store whose every query/commit/delete raises when `failing = true`. -/
inductive Db where
  | noconn : Db
  | conn (failing : Bool) (st : DbState) : Db
  deriving DecidableEq

/-- Whether every durable-store operation on this connection raises. -/
def db_failing (db : Db) : Bool :=
  match db with
  | .conn true _ => true
  | _ => false

/-- The `method_dictionary` block of the authentication configuration. -/
structure DictConfig where
  enabled : Bool
  auths : List String
  groups? : Option (List (String × List String))
  deriving DecidableEq

/-- One entry of `method_ldap.authorities`, bundled with the external
`cc_ldap.auth_user` / `cc_ldap.get_groups` oracles for that authority. -/
structure LdapAuthority where
  auth_user : String → String → Bool
  get_groups : String → String → List String

/-- The `SessionManager` state: the in-memory session list, the login
counter, the durable-store connection and the authentication configuration
(with the external validator oracles as function fields).
`pam_enabled` / `ldap_enabled` model `__is_method_enabled`: the backend is
supported on the host, configured, and enabled. -/
structure SessionManager where
  sessions : List Session
  logins_since_prune : Nat
  db : Db
  enabled : Bool
  logins_until_cleanup : Nat
  session_lifetime : Int
  method_root : Option String
  sha256_hex : String → String
  method_dictionary : Option DictConfig
  pam_enabled : Bool
  pam_auth : String → String → Bool
  ldap_enabled : Bool
  ldap_authorities : List LdapAuthority

/-- Python `str.split(sep)` for a one-character separator, on `List Char`:
`"" ↦ [""]`, separators at the ends produce empty fields. -/
def split_chars (sep : Char) : List Char → List (List Char)
  | [] => [[]]
  | c :: rest =>
    if c = sep then [] :: split_chars sep rest
    else
      match split_chars sep rest with
      | [] => [[c]]
      | g :: gs => (c :: g) :: gs

/-- Python `auth_string.split(sep)` for a one-character separator. -/
def py_split (sep : Char) (s : String) : List String :=
  (split_chars sep s.data).map (fun cs => String.mk cs)

/-- Python `sep.join(groups)` for a one-character separator. -/
def join_chars (sep : Char) : List (List Char) → List Char
  | [] => []
  | [g] => g
  | g :: gs => g ++ sep :: join_chars sep gs

/-- `';'.join(groups)` as used when storing a durable session record. -/
def join_groups (groups : List String) : String :=
  String.mk (join_chars ';' (groups.map (fun g => g.data)))

/-- `SessionManager.get_user_name`: `auth_string.split(':')[0]`
(`split` always returns a non-empty list, so index 0 never raises). -/
def get_user_name (auth_string : String) : String :=
  (py_split ':' auth_string).headD ""

/-- `SessionManager.__try_auth_root`: accept iff the configured `method_root`
hash is present and equals the SHA-256 hex digest of the credential string. -/
def try_auth_root (m : SessionManager) (auth_string : String) :
    Option PyValidation :=
  match m.method_root with
  | some h =>
    if m.sha256_hex auth_string == h then
      some { username := get_user_name auth_string
             groups? := some []
             root? := some true }
    else none
  | none => none

/-- `SessionManager.__try_auth_dictionary`: accept iff the dictionary method
is configured, enabled, and the whole credential string is in its `auths`
list; groups are looked up by username in the optional `groups` mapping. -/
def try_auth_dictionary (m : SessionManager) (auth_string : String) :
    Option PyValidation :=
  match m.method_dictionary with
  | none => none
  | some d =>
    if d.enabled && d.auths.contains auth_string then
      some { username := get_user_name auth_string
             groups? := some
               (match d.groups? with
                | some gs =>
                  match gs.lookup (get_user_name auth_string) with
                  | some g => g
                  | none => []
                | none => [])
             root? := none }
    else none

/-- `SessionManager.__try_auth_pam`: when PAM is enabled the code runs
`username, password = auth_string.split(':')`, which raises `ValueError`
unless the split has exactly two fields, then consults the PAM oracle.
The returned dict has no `groups` key. -/
def try_auth_pam (m : SessionManager) (auth_string : String) :
    Except PyErr (Option PyValidation) :=
  if m.pam_enabled then
    match py_split ':' auth_string with
    | [username, password] =>
      if m.pam_auth username password then
        .ok (some { username := username, groups? := none, root? := none })
      else .ok none
    | _ => .error .valueError
  else .ok none

/-- `SessionManager.__try_auth_ldap`: same `username, password` unpacking as
PAM, then the first accepting authority wins and its `get_groups` is used. -/
def try_auth_ldap (m : SessionManager) (auth_string : String) :
    Except PyErr (Option PyValidation) :=
  if m.ldap_enabled then
    match py_split ':' auth_string with
    | [username, password] =>
      match m.ldap_authorities.find? (fun a => a.auth_user username password) with
      | some a =>
        .ok (some { username := username
                    groups? := some (a.get_groups username password)
                    root? := none })
      | none => .ok none
    | _ => .error .valueError
  else .ok none

/-- `SessionManager.__handle_validation`: dictionary, then PAM, then LDAP;
the first validator that returns a truthy validation object wins. -/
def handle_validation (m : SessionManager) (auth_string : String) :
    Except PyErr (Option PyValidation) :=
  match try_auth_dictionary m auth_string with
  | some v => .ok (some v)
  | none =>
    match try_auth_pam m auth_string with
    | .error e => .error e
    | .ok (some v) => .ok (some v)
    | .ok none => try_auth_ldap m auth_string

/-- The inline validation chain of `create_or_get_session` (lines 368-374):
`__try_auth_root` first, then `__handle_validation`. -/
def dispatch_validation (m : SessionManager) (auth_string : String) :
    Except PyErr (Option PyValidation) :=
  match try_auth_root m auth_string with
  | some v => .ok (some v)
  | none => handle_validation m auth_string

/-- Modelled from the spec: "Dispatch order is root, then dictionary, then
PAM, then LDAP; the first non-rejecting validator determines the result."
Generic first-acceptance over an ordered list of validator outcomes, for the
refinement comparison with `dispatch_validation`. -/
def first_accepting : List (Except PyErr (Option PyValidation)) →
    Except PyErr (Option PyValidation)
  | [] => .ok none
  | r :: rest =>
    match r with
    | .error e => .error e
    | .ok (some v) => .ok (some v)
    | .ok none => first_accepting rest

/-- Modelled from the spec: the validator set consulted in the fixed order
root, dictionary, PAM, LDAP. -/
def spec_dispatch_order (m : SessionManager) (auth_string : String) :
    Except PyErr (Option PyValidation) :=
  first_accepting
    [.ok (try_auth_root m auth_string),
     .ok (try_auth_dictionary m auth_string),
     try_auth_pam m auth_string,
     try_auth_ldap m auth_string]

/-- `SessionManager.get_db_session_tokens`: `None` when no connection is set
or the query raises (caught and logged); otherwise the token list of every
durable record whose `user_name` matches. -/
def get_db_session_tokens (m : SessionManager) (user_name : String) :
    Option (List String) :=
  match m.db with
  | .noconn => none
  | .conn failing st =>
    if failing then none
    else
      some ((st.sessions.filter (fun r => r.user_name == user_name)).map
              (fun r => r.token))

/-- `SessionManager._get_local_session_from_db`: promote the first durable
record with the given token into a `_Session`; `is_root` is recomputed from
the `SystemPermission` table; `None` when no connection, the query raises, or
no record matches. -/
def get_local_session_from_db (m : SessionManager) (token : String) :
    Option Session :=
  match m.db with
  | .noconn => none
  | .conn failing st =>
    if failing then none
    else
      match st.sessions.find? (fun r => r.token == token) with
      | none => none
      | some r =>
        some { token := token
               user := r.user_name
               groups := py_split ';' r.groups
               session_lifetime := m.session_lifetime
               is_root := (st.system_permissions.find?
                             (fun n => n == r.user_name)).isSome
               last_access := r.last_access }

/-- The durable deletion performed by `invalidate`: filter out every record
with the token; when the store is failing the delete raises and the store is
left unchanged. -/
def db_delete_token (db : Db) (token : String) : Db :=
  match db with
  | .noconn => db
  | .conn failing st =>
    if failing then db
    else .conn false
      { st with sessions := st.sessions.filter (fun r => r.token != token) }

/-- `SessionManager.invalidate`: remove every in-memory session with the
token, then delete the durable records; returns `True` unless the durable
delete raised (in which case the in-memory removal is kept). -/
def invalidate (m : SessionManager) (token : String) :
    Bool × SessionManager :=
  (!(db_failing m.db),
   { m with sessions := m.sessions.filter (fun s => s.token != token)
            db := db_delete_token m.db token })

/-- The body of `SessionManager.get_session` past its `is_enabled` guard:
scan the in-memory list for an alive session with the token; otherwise
promote from the durable store, appending it only when alive, and
invalidating the token when the promoted record is dead or absent.  Note the
source returns `local_session` on the dead-promote path, not `None`. -/
def get_session_enabled (m : SessionManager) (now : Int) (token : String) :
    Option Session × SessionManager :=
  match m.sessions.find? (fun s => s.is_alive now && s.token == token) with
  | some s => (some s, m)
  | none =>
    match get_local_session_from_db m token with
    | some s =>
      if s.is_alive now then
        (some s, { m with sessions := m.sessions ++ [s] })
      else (some s, (invalidate m token).2)
    | none => (none, (invalidate m token).2)

/-- `SessionManager.get_session`: `None` when authentication is disabled,
otherwise the two-tier lookup above. -/
def get_session (m : SessionManager) (now : Int) (token : String) :
    Option Session × SessionManager :=
  if !m.enabled then (none, m)
  else get_session_enabled m now token

/-- `SessionManager.__cleanup_sessions`: collect the tokens of the dead
in-memory sessions, reset the login counter, then invalidate each token. -/
def cleanup_sessions (m : SessionManager) (now : Int) : SessionManager :=
  ((m.sessions.filter (fun s => !(s.is_alive now))).map
     (fun s => s.token)).foldl
    (fun acc t => (invalidate acc t).2)
    { m with logins_since_prune := 0 }

/-- The durable-store side of `_Session.revalidate`: set `last_access` of the
first record with the token; a failing store raises, which is caught, leaving
the store unchanged. -/
def db_set_first : List SessionRecord → String → Int → List SessionRecord
  | [], _, _ => []
  | r :: rest, token, now =>
    if r.token == token then { r with last_access := now } :: rest
    else r :: db_set_first rest token now

/-- The durable-store update performed by `_Session.revalidate`. -/
def db_update_last_access (db : Db) (token : String) (now : Int) : Db :=
  match db with
  | .noconn => db
  | .conn failing st =>
    if failing then db
    else .conn false { st with sessions := db_set_first st.sessions token now }

/-- `_Session.revalidate`: a no-op on a dead session; on an alive one,
refresh `last_access` and push the timestamp to the durable store. -/
def Session.revalidate (s : Session) (db : Db) (now : Int) : Session × Db :=
  if s.is_alive now then
    ({ s with last_access := now }, db_update_last_access db s.token now)
  else (s, db)

/-- The in-memory effect of `local_session.revalidate()` inside
`create_or_get_session`: the object returned by `get_session` is the first
alive session with the token in the (possibly just-extended) list, and the
mutation of its `last_access` is visible through the list. -/
def revalidate_first (now : Int) (token : String) :
    List Session → List Session
  | [] => []
  | s :: rest =>
    if s.is_alive now && s.token == token then
      { s with last_access := now } :: rest
    else s :: revalidate_first now token rest

/-- The durable insert performed for a brand-new session.  Modelled from the
spec: the record class `database.config_db_model.Session` is not under src/;
per the spec's data model its `last_access` starts at creation time. -/
def db_insert_record (db : Db) (token user_name : String)
    (groups : List String) (now : Int) : Db :=
  match db with
  | .noconn => db
  | .conn failing st =>
    if failing then db
    else .conn false
      { st with sessions := st.sessions ++
          [{ token := token
             user_name := user_name
             groups := join_groups groups
             last_access := now }] }

/-- The value returned by `create_or_get_session`:
`no_auth` is Python `None` (authentication disabled), `rejected` is Python
`False`, otherwise the `_Session` object. -/
inductive LoginResult where
  | no_auth
  | rejected
  | session (s : Session)
  deriving DecidableEq

/-- The opening of `create_or_get_session` (lines 361-365): increment the
login counter, then run the cleanup pass when it has reached the configured
threshold (the pass itself resets the counter to 0). -/
def bump_and_cleanup (m : SessionManager) (now : Int) : SessionManager :=
  if m.logins_since_prune + 1 ≥ m.logins_until_cleanup then
    cleanup_sessions
      { m with logins_since_prune := m.logins_since_prune + 1 } now
  else { m with logins_since_prune := m.logins_since_prune + 1 }

/-- The tail of `create_or_get_session` (lines 382-411), once the token to
use has been resolved: look up the token with `get_session`; a session object
found there (alive or, on the dead-promote path, dead) is revalidated — a
no-op when dead — and returned; otherwise a brand-new session is built from
the validation result, appended, and inserted into the durable store (insert
failures are caught and ignored). -/
def create_with_token (m : SessionManager) (now : Int) (token : String)
    (validation : PyValidation) :
    Except PyErr LoginResult × SessionManager :=
  match get_session m now token with
  | (some s, m3) =>
    if s.is_alive now then
      (.ok (.session (s.revalidate m3.db now).1),
       { m3 with sessions := revalidate_first now token m3.sessions
                 db := (s.revalidate m3.db now).2 })
    else (.ok (.session s), m3)
  | (none, m3) =>
    (.ok (.session
       { token := token
         user := validation.username
         groups := validation.groups?.getD []
         session_lifetime := m3.session_lifetime
         is_root := validation.root?.getD false
         last_access := now }),
     { m3 with sessions := m3.sessions ++
                 [{ token := token
                    user := validation.username
                    groups := validation.groups?.getD []
                    session_lifetime := m3.session_lifetime
                    is_root := validation.root?.getD false
                    last_access := now }]
               db := db_insert_record m3.db token validation.username
                       (validation.groups?.getD []) now })

/-- The middle of `create_or_get_session` (lines 367-380): validate the
credential, then resolve the token: `get_db_session_tokens` may return
`None`, in which case `len(tokens)` raises `TypeError`; a non-empty token
list reuses its first token, otherwise a fresh one is generated. -/
def create_validated (m : SessionManager) (now : Int)
    (fresh_token auth_string : String) :
    Except PyErr LoginResult × SessionManager :=
  match dispatch_validation m auth_string with
  | .error e => (.error e, m)
  | .ok none => (.ok .rejected, m)
  | .ok (some validation) =>
    match get_db_session_tokens m validation.username with
    | none => (.error .typeError, m)
    | some tokens =>
      create_with_token m now
        (match tokens with
         | [] => fresh_token
         | tk :: _ => tk)
        validation

/-- `SessionManager.create_or_get_session`.  Faithful to the source,
including: the login counter is incremented (and the cleanup pass possibly
run) before validation, so rejected credentials also advance it; a `None`
from `get_db_session_tokens` makes `len(tokens)` raise `TypeError`. -/
def create_or_get_session (m : SessionManager) (now : Int)
    (fresh_token auth_string : String) :
    Except PyErr LoginResult × SessionManager :=
  if !m.enabled then (.ok .no_auth, m)
  else create_validated (bump_and_cleanup m now) now fresh_token auth_string

/-- One public operation on the manager, tagged with the wall-clock instant
at which it runs (`inval` ignores its instant: `invalidate` never reads the
clock). -/
inductive Op where
  | create (now : Int) (fresh_token auth_string : String)
  | get (now : Int) (token : String)
  | inval (now : Int) (token : String)
  | cleanup (now : Int)

/-- The instant at which an operation runs. -/
def Op.now : Op → Int
  | .create n _ _ => n
  | .get n _ => n
  | .inval n _ => n
  | .cleanup n => n

/-- The state transition of one operation. -/
def apply_op (m : SessionManager) : Op → SessionManager
  | .create n f a => (create_or_get_session m n f a).2
  | .get n t => (get_session m n t).2
  | .inval _ t => (invalidate m t).2
  | .cleanup n => cleanup_sessions m n

/-- Run a sequence of operations. -/
def run_ops (m : SessionManager) (ops : List Op) : SessionManager :=
  ops.foldl apply_op m

/-- The operations run in chronological order, starting no earlier than `t`. -/
def chron : Int → List Op → Bool
  | _, [] => true
  | t, op :: ops => decide (t ≤ op.now) && chron op.now ops

/-- The instant of the last operation (or `t` when there is none). -/
def end_time : Int → List Op → Int
  | t, [] => t
  | _, op :: ops => end_time op.now ops

/-- Two sessions clash when both are alive and share a token. -/
def live_clash (now : Int) (a b : Session) : Bool :=
  a.is_alive now && b.is_alive now && a.token == b.token

/-- Boolean pairwise check over a session list. -/
def pairwise_ok (r : Session → Session → Bool) : List Session → Bool
  | [] => true
  | a :: rest => rest.all (fun b => r a b) && pairwise_ok r rest

/-- No two distinct entries of the list are both alive with the same token. -/
def no_dup_live (now : Int) (l : List Session) : Bool :=
  pairwise_ok (fun a b => !(live_clash now a b)) l

/-- The claimed invariant: at most one live in-memory session per token. -/
def at_most_one_live (now : Int) (m : SessionManager) : Bool :=
  no_dup_live now m.sessions

/-- The durable session rows of a connection (empty when not connected). -/
def db_records : Db → List SessionRecord
  | .noconn => []
  | .conn _ st => st.sessions

deriving instance DecidableEq for Except

/-- A baseline manager configuration: authentication enabled, root hash
configured, a stand-in hash oracle, every other backend off, no durable
store.  The per-claim states below adjust its fields. -/
def base_mgr : SessionManager :=
  { sessions := []
    logins_since_prune := 0
    db := .noconn
    enabled := true
    logins_until_cleanup := 10
    session_lifetime := 60
    method_root := some "root:adminpw"
    sha256_hex := fun s => s
    method_dictionary := none
    pam_enabled := false
    pam_auth := fun _ _ => false
    ldap_enabled := false
    ldap_authorities := [] }

/-- C1 state: valid root credential, durable store not connected. -/
def c1_mgr : SessionManager := base_mgr

/-- C1 state: durable store connected but every call on it raises. -/
def c1_mgr_failing : SessionManager :=
  { base_mgr with db := .conn true ⟨[], []⟩ }

/-- C2 state: token `"t"` exists only in the durable store, last accessed at
time 0 with lifetime 60, so it is dead at time 1000. -/
def c2_mgr : SessionManager :=
  { base_mgr with db := .conn false ⟨[⟨"t", "bob", "dev", 0⟩], []⟩ }

/-- The dead session that `get_session` promotes from the C2 durable row. -/
def c2_dead : Session := ⟨"t", "bob", ["dev"], 60, false, 0⟩

/-- C3 state: lifetime 60, working durable store, root credential
`"root:pw"`. -/
def c3_mgr : SessionManager :=
  { base_mgr with method_root := some "root:pw", db := .conn false ⟨[], []⟩ }

/-- C3 state after the credential validates at t = 0 producing token `"A"`. -/
def c3_mgr2 : SessionManager := (create_or_get_session c3_mgr 0 "A" "root:pw").2

/-- The session record created for token `"A"` at t = 0 in the C3 scenario. -/
def c3_sess : Session := ⟨"A", "root", [], 60, true, 0⟩

/-- The dead durable copy of `"A"` that `get_session` yields at t = 95
(groups `[""]` because `"".split(';') == ['']`, root recomputed as false from
the empty `SystemPermission` table). -/
def c3_dead : Session := ⟨"A", "root", [""], 60, false, 0⟩

/-- C4 state: `logins_until_cleanup = 3`, one dead in-memory session, a
working durable store and root credential `"root:pw"`. -/
def c4_mgr : SessionManager :=
  { base_mgr with
      method_root := some "root:pw"
      logins_until_cleanup := 3
      sessions := [⟨"D", "olduser", [], 60, false, -1000⟩]
      db := .conn false ⟨[], []⟩ }

/-- C4 state after the first (rejected) `create_or_get_session` call. -/
def c4_m1 : SessionManager := (create_or_get_session c4_mgr 0 "T1" "bad:cred").2

/-- C4 state after the second (rejected) call. -/
def c4_m2 : SessionManager := (create_or_get_session c4_m1 5 "T2" "bad:cred").2

/-- C4 state after the third call, which succeeds with the root credential. -/
def c4_m3 : SessionManager := (create_or_get_session c4_m2 10 "T3" "root:pw").2

/-- C5 state: PAM and LDAP both enabled with all-accepting oracles, no other
backend configured. -/
def c5_mgr : SessionManager :=
  { base_mgr with
      method_root := none
      pam_enabled := true
      pam_auth := fun _ _ => true
      ldap_enabled := true
      ldap_authorities := [⟨fun _ _ => true, fun _ _ => []⟩] }

/-- C6 witness state: root hash configured for `"root:adminpw"` while every
other backend is enabled and adversarially accepts the same credential. -/
def c6_mgr : SessionManager :=
  ⟨[], 0, .conn false ⟨[], []⟩, true, 2, 60, some "root:adminpw",
   fun s => s,
   some ⟨true, ["root:adminpw"], some [("root", ["not-root-group"])]⟩,
   true, fun _ _ => true,
   true, [⟨fun _ _ => true, fun _ _ => ["ldap-group"]⟩]⟩

/-- C7 witness session: dead at time 100 (lifetime 60, last access 0). -/
def c7_sess : Session := ⟨"t", "u", [], 60, false, 0⟩

/-- C9 witness state: working durable store, root credential `"root:pw"`. -/
def c9_mgr : SessionManager :=
  { base_mgr with
      method_root := some "root:pw"
      logins_until_cleanup := 5
      db := .conn false ⟨[], []⟩ }

/-- C9 witness operation sequence: two logins for the same user (the second
reuses the durable token), a lookup, an explicit invalidation, a prune. -/
def c9_ops : List Op :=
  [.create 0 "T" "root:pw", .get 5 "T", .create 10 "T2" "root:pw",
   .inval 20 "T", .cleanup 30]

/-- C10 state: dictionary backend configured with entry `"alice:secret"` and
group mapping `{"alice": ["dev"]}`; root hash never matches. -/
def c10_mgr : SessionManager :=
  { base_mgr with
      method_root := some "ZZZ"
      sha256_hex := fun _ => "Q"
      method_dictionary := some ⟨true, ["alice:secret"], some [("alice", ["dev"])]⟩
      db := .conn false ⟨[], []⟩ }

/-- C10 witness state: allow-list entry whose user is absent from the group
mapping. -/
def c10_mgr_nogroup : SessionManager :=
  { c10_mgr with
      method_dictionary := some ⟨true, ["carol:pw"], some [("alice", ["dev"])]⟩ }

lemma filter_idem {α : Type} (p : α → Bool) (l : List α) :
    (l.filter p).filter p = l.filter p := by
  induction l with
  | nil => rfl
  | cons a l ih =>
    cases h : p a
    · simp [List.filter_cons, h, ih]
    · simp [List.filter_cons, h, ih]

lemma db_failing_delete (db : Db) (t : String) :
    db_failing (db_delete_token db t) = db_failing db := by
  cases db with
  | noconn => rfl
  | conn f st => cases f <;> rfl

lemma db_delete_idem (db : Db) (t : String) :
    db_delete_token (db_delete_token db t) t = db_delete_token db t := by
  cases db with
  | noconn => rfl
  | conn f st =>
    cases f
    · simp [db_delete_token, filter_idem]
    · rfl

/-- C7: revalidating a dead session is a no-op — the record and the durable
store are unchanged — and the record stays dead at every later instant. -/
theorem c7_revalidate_dead_noop (s : Session) (db : Db) (now : Int)
    (h : s.is_alive now = false) :
    Session.revalidate s db now = (s, db) ∧
    ∀ later : Int, now ≤ later → s.is_alive later = false := by
  constructor
  · simp [Session.revalidate, h]
  · intro later hle
    simp only [Session.is_alive, decide_eq_false_iff_not] at h ⊢
    omega

/-- C7 witness: a session with lifetime 60 last accessed at 0, revalidated
at time 100. -/
theorem c7_witness :
    Session.is_alive 100 c7_sess = false ∧
    Session.revalidate c7_sess .noconn 100 = (c7_sess, .noconn) :=
  ⟨by decide, (c7_revalidate_dead_noop c7_sess .noconn 100 (by decide)).1⟩

/-- C8: `invalidate` always returns (it models a method whose body catches
every durable-store exception): it reports success exactly when the durable
store is not failing — in particular trivially for a token present in
neither tier — always removes every in-memory session with the token
(keeping that removal even on durable failure, when it reports `False`), and
is idempotent: a second invalidation of the same token returns the same
verdict and leaves the state fixed. -/
theorem c8_invalidate_total_idempotent (m : SessionManager) (t : String) :
    (invalidate m t).1 = !(db_failing m.db) ∧
    (invalidate m t).2.sessions = m.sessions.filter (fun s => s.token != t) ∧
    (invalidate m t).2.db = db_delete_token m.db t ∧
    invalidate (invalidate m t).2 t = ((invalidate m t).1, (invalidate m t).2) := by
  refine ⟨rfl, rfl, rfl, ?_⟩
  simp only [invalidate, db_failing_delete, filter_idem, db_delete_idem]

/-- C1: for a credential accepted by the root validator,
`create_or_get_session` raises `TypeError` instead of returning an in-memory
session, both when the durable store is not connected and when its every call
raises: `get_db_session_tokens` returns `None` on both paths and
`len(tokens)` then raises. -/
theorem c1_durable_store_absent_raises :
    try_auth_root c1_mgr "root:adminpw" =
      some ⟨"root", some [], some true⟩ ∧
    (create_or_get_session c1_mgr 0 "T" "root:adminpw").1 =
      .error .typeError ∧
    (create_or_get_session c1_mgr_failing 0 "T" "root:adminpw").1 =
      .error .typeError := by
  refine ⟨by decide, by decide, by decide⟩

/-- C2: a token found only in the durable store whose record is dead is
invalidated from both tiers, but `get_session` returns the dead session
object rather than `None`, contradicting the claim and the function's own
docstring. -/
theorem c2_dead_db_session_returned :
    (get_session c2_mgr 1000 "t").1 = some c2_dead ∧
    Session.is_alive 1000 c2_dead = false ∧
    (get_session c2_mgr 1000 "t").2.sessions = [] ∧
    db_records (get_session c2_mgr 1000 "t").2.db = [] := by
  refine ⟨by decide, by decide, by decide, by decide⟩

/-- C3 counterexample: with lifetime 60 and a session created at t = 0,
`get_session` at t = 30 returns the record with `lastAccess` still 0, not 30
as the claim states — `get_session` never revalidates. -/
theorem c3_counterexample :
    ((get_session c3_mgr2 30 "A").1.map (fun s => s.last_access)) ≠ some 30 := by
  decide

/-- C3 amended: `get_session` does not update `lastAccess` (revalidation
happens only inside `create_or_get_session`): at t = 30 it returns the live
record with `lastAccess` still 0; at t = 95 no live session is returned — the
in-memory record is dead, the token is removed from both tiers, and the value
yielded is the dead durable-store copy rather than `None`. -/
theorem c3_amended :
    (get_session c3_mgr2 30 "A").1 = some c3_sess ∧
    Session.is_alive 30 c3_sess = true ∧
    (get_session c3_mgr2 95 "A").1 = some c3_dead ∧
    Session.is_alive 95 c3_dead = false ∧
    (get_session c3_mgr2 95 "A").2.sessions = [] ∧
    db_records (get_session c3_mgr2 95 "A").2.db = [] := by
  refine ⟨by decide, by decide, by decide, by decide, by decide, by decide⟩

lemma get_session_enabled_logins (m : SessionManager) (now : Int)
    (t : String) :
    (get_session_enabled m now t).2.logins_since_prune =
      m.logins_since_prune := by
  unfold get_session_enabled
  split
  · rfl
  · split
    · split
      · rfl
      · rfl
    · rfl

lemma get_session_logins (m : SessionManager) (now : Int) (t : String) :
    (get_session m now t).2.logins_since_prune = m.logins_since_prune := by
  unfold get_session
  split
  · rfl
  · exact get_session_enabled_logins m now t

lemma create_with_token_logins (m : SessionManager) (now : Int) (t : String)
    (v : PyValidation) :
    (create_with_token m now t v).2.logins_since_prune =
      m.logins_since_prune := by
  unfold create_with_token
  split
  next s m3 heq =>
    have h3 : m3.logins_since_prune = m.logins_since_prune := by
      have := get_session_logins m now t
      rw [heq] at this
      exact this
    split
    · exact h3
    · exact h3
  next m3 heq =>
    have h3 : m3.logins_since_prune = m.logins_since_prune := by
      have := get_session_logins m now t
      rw [heq] at this
      exact this
    exact h3

lemma create_validated_logins (m : SessionManager) (now : Int)
    (f a : String) :
    (create_validated m now f a).2.logins_since_prune =
      m.logins_since_prune := by
  unfold create_validated
  split
  · rfl
  · rfl
  · split
    · rfl
    · exact create_with_token_logins _ _ _ _

lemma bump_logins_below (m : SessionManager)
    (hlt : m.logins_since_prune + 1 < m.logins_until_cleanup) (now : Int) :
    (bump_and_cleanup m now).logins_since_prune =
      m.logins_since_prune + 1 := by
  unfold bump_and_cleanup
  rw [if_neg (by omega)]

/-- C4 counterexample: a `create_or_get_session` call whose credential is
rejected by every validator nevertheless advances the login counter (from 0
to 1 here), because the source increments the counter before validation. -/
theorem c4_counterexample :
    (create_or_get_session c4_mgr 0 "T1" "bad:cred").1 = .ok .rejected ∧
    (create_or_get_session c4_mgr 0 "T1" "bad:cred").2.logins_since_prune ≠
      c4_mgr.logins_since_prune := by
  refine ⟨by decide, by decide⟩

/-- C4 amended: the login counter counts every `create_or_get_session` call
made while authentication is enabled — rejected credentials included — not
only successful logins; below the threshold each call advances it by one,
and on the call that reaches the threshold (here the 3rd, with
`logins_until_cleanup = 3`) the pruning pass removes all previously dead
in-memory sessions and the counter resets to 0 before that call's
validation. -/
theorem c4_amended :
    (∀ (m : SessionManager) (now : Int) (f a : String),
        m.enabled = true →
        m.logins_since_prune + 1 < m.logins_until_cleanup →
        (create_or_get_session m now f a).2.logins_since_prune =
          m.logins_since_prune + 1) ∧
    (create_or_get_session c4_mgr 0 "T1" "bad:cred").1 = .ok .rejected ∧
    c4_m1.logins_since_prune = 1 ∧
    (create_or_get_session c4_m1 5 "T2" "bad:cred").1 = .ok .rejected ∧
    c4_m2.logins_since_prune = 2 ∧
    (create_or_get_session c4_m2 10 "T3" "root:pw").1 =
      .ok (.session ⟨"T3", "root", [], 60, true, 10⟩) ∧
    c4_m3.logins_since_prune = 0 ∧
    c4_m3.sessions = [⟨"T3", "root", [], 60, true, 10⟩] := by
  refine ⟨?_, by decide, by decide, by decide, by decide, by decide,
          by decide, by decide⟩
  intro m now f a he hlt
  unfold create_or_get_session
  rw [he]
  simp only [Bool.not_true, Bool.false_eq_true, if_false]
  rw [create_validated_logins, bump_logins_below m hlt now]

/-- C4 witness for the universal part: a rejected call from a state with
counter 0 and threshold 3 advances the counter to 1. -/
theorem c4_amended_witness :
    c4_mgr.enabled = true ∧
    c4_mgr.logins_since_prune + 1 < c4_mgr.logins_until_cleanup ∧
    (create_or_get_session c4_mgr 0 "T1" "bad:cred").2.logins_since_prune =
      c4_mgr.logins_since_prune + 1 :=
  ⟨by decide, by decide, c4_amended.1 c4_mgr 0 "T1" "bad:cred" (by decide) (by decide)⟩

/-- C5: with PAM (and LDAP) enabled, a credential whose secret contains a
colon makes `username, password = auth_string.split(':')` raise `ValueError`
(three fields into two targets), which propagates out of
`create_or_get_session`; `get_user_name` shows the intended first-colon
split. -/
theorem c5_colon_in_secret_raises :
    try_auth_pam c5_mgr "alice:se:cret" = .error .valueError ∧
    try_auth_ldap c5_mgr "alice:se:cret" = .error .valueError ∧
    (create_or_get_session c5_mgr 0 "T" "alice:se:cret").1 =
      .error .valueError ∧
    get_user_name "alice:se:cret" = "alice" := by
  refine ⟨by decide, by decide, by decide, by decide⟩

/-- C10: with the dictionary backend enabled and configured with entry
`"alice:secret"` and groups `{"alice": ["dev"]}`, `create_or_get_session`
succeeds with username `alice`, groups `["dev"]`, `isRoot = false`; any
credential not in the allow-list is rejected by the dictionary validator;
and a matching credential whose user is absent from the group mapping gets
empty groups. -/
theorem c10_dictionary_backend :
    (create_or_get_session c10_mgr 0 "T" "alice:secret").1 =
      .ok (.session ⟨"T", "alice", ["dev"], 60, false, 0⟩) ∧
    (∀ (m : SessionManager) (d : DictConfig) (auth : String),
        m.method_dictionary = some d →
        d.auths.contains auth = false →
        try_auth_dictionary m auth = none) ∧
    (∀ (m : SessionManager) (d : DictConfig) (auth : String),
        m.method_dictionary = some d →
        d.enabled = true →
        d.auths.contains auth = true →
        d.groups?.bind (fun gs => gs.lookup (get_user_name auth)) = none →
        try_auth_dictionary m auth =
          some ⟨get_user_name auth, some [], none⟩) := by
  refine ⟨by decide, ?_, ?_⟩
  · intro m d auth hd hc
    have hc2 : auth ∉ d.auths := by simpa using hc
    simp [try_auth_dictionary, hd, hc2]
  · intro m d auth hd he hc hg
    have hc2 : auth ∈ d.auths := by simpa using hc
    cases hgs : d.groups? with
    | none => simp [try_auth_dictionary, hd, he, hc2, hgs]
    | some gs =>
      rw [hgs] at hg
      rw [Option.some_bind'] at hg
      simp [try_auth_dictionary, hd, he, hc2, hgs, hg]

/-- C10 witness: the two universal parts applied at concrete inputs — a
credential absent from the allow-list is rejected, and a listed credential
whose user is missing from the group mapping validates with empty groups. -/
theorem c10_witness :
    (⟨true, ["alice:secret"], some [("alice", ["dev"])]⟩ :
        DictConfig).auths.contains "bob:x" = false ∧
    try_auth_dictionary c10_mgr "bob:x" = none ∧
    try_auth_dictionary c10_mgr_nogroup "carol:pw" =
      some ⟨"carol", some [], none⟩ :=
  ⟨by decide,
   c10_dictionary_backend.2.1 c10_mgr _ "bob:x" rfl (by decide),
   c10_dictionary_backend.2.2 c10_mgr_nogroup _ "carol:pw" rfl (by decide)
     (by decide) (by decide)⟩

/-- C6: the validation chain of `create_or_get_session` equals the spec's
first-non-rejecting dispatch over root, dictionary, PAM, LDAP in that order;
and a credential matching the configured root hash yields a session with
`isRoot = true` whatever the configuration and oracles of the dictionary,
PAM and LDAP backends (starting from a fresh state with a working durable
store, so the token path does not raise). -/
theorem c6_root_first_dispatch :
    (∀ (m : SessionManager) (auth : String),
        dispatch_validation m auth = spec_dispatch_order m auth) ∧
    (∀ (dict : Option DictConfig) (pe le : Bool)
       (pa : String → String → Bool) (la : List LdapAuthority)
       (h : String → String) (rh fresh auth : String) (now lt : Int),
        h auth = rh →
        (create_or_get_session
            ⟨[], 0, .conn false ⟨[], []⟩, true, 2, lt, some rh, h,
             dict, pe, pa, le, la⟩ now fresh auth).1 =
          .ok (.session ⟨fresh, get_user_name auth, [], lt, true, now⟩)) := by
  constructor
  · intro m auth
    unfold dispatch_validation spec_dispatch_order first_accepting
      handle_validation
    cases hr : try_auth_root m auth with
    | some v => rfl
    | none =>
      cases hd : try_auth_dictionary m auth with
      | some v => rfl
      | none =>
        cases hp : try_auth_pam m auth with
        | error e => rfl
        | ok o =>
          cases o with
          | some v => rfl
          | none =>
            cases hl : try_auth_ldap m auth with
            | error e => rfl
            | ok o2 => cases o2 <;> rfl
  · intro dict pe le pa la h rh fresh auth now lt hh
    have hbeq : (h auth == rh) = true := by
      rw [hh]
      exact beq_self_eq_true rh
    simp [create_or_get_session, bump_and_cleanup, cleanup_sessions,
          create_validated, dispatch_validation, try_auth_root, hbeq,
          get_db_session_tokens, create_with_token, get_session,
          get_session_enabled, get_local_session_from_db, invalidate,
          db_delete_token,
          db_insert_record]

/-- C6 witness: root hash configured for `"root:adminpw"`, every other
backend enabled and accepting the same credential; the call still yields the
root session. -/
theorem c6_witness :
    c6_mgr.sha256_hex "root:adminpw" = "root:adminpw" ∧
    (create_or_get_session c6_mgr 3 "F" "root:adminpw").1 =
      .ok (.session ⟨"F", "root", [], 60, true, 3⟩) := by
  refine ⟨rfl, ?_⟩
  have h := c6_root_first_dispatch.2
    (some ⟨true, ["root:adminpw"], some [("root", ["not-root-group"])]⟩)
    true true (fun _ _ => true) [⟨fun _ _ => true, fun _ _ => ["ldap-group"]⟩]
    (fun s => s) "root:adminpw" "F" "root:adminpw" 3 60 rfl
  have hu : get_user_name "root:adminpw" = "root" := by decide
  rw [hu] at h
  exact h

lemma is_alive_mono {s : Session} {now later : Int} (hle : now ≤ later)
    (ha : s.is_alive later = true) : s.is_alive now = true := by
  simp only [Session.is_alive, decide_eq_true_eq] at ha ⊢
  omega

lemma live_clash_mono {now later : Int} (hle : now ≤ later) (a b : Session)
    (hc : live_clash later a b = true) : live_clash now a b = true := by
  simp only [live_clash, Bool.and_eq_true] at hc ⊢
  exact ⟨⟨is_alive_mono hle hc.1.1, is_alive_mono hle hc.1.2⟩, hc.2⟩

lemma all_of_imp {l : List Session} {f g : Session → Bool}
    (h : ∀ x, f x = true → g x = true) (hl : l.all f = true) :
    l.all g = true := by
  rw [List.all_eq_true] at hl ⊢
  exact fun x hx => h x (hl x hx)

lemma pairwise_ok_imp {r r2 : Session → Session → Bool}
    (h : ∀ a b, r a b = true → r2 a b = true) :
    ∀ l, pairwise_ok r l = true → pairwise_ok r2 l = true := by
  intro l
  induction l with
  | nil => intro _; rfl
  | cons a rest ih =>
    intro hl
    rw [pairwise_ok, Bool.and_eq_true] at hl ⊢
    exact ⟨all_of_imp (h a) hl.1, ih hl.2⟩

lemma no_dup_live_mono {now later : Int} (hle : now ≤ later)
    {l : List Session} (h : no_dup_live now l = true) :
    no_dup_live later l = true := by
  refine pairwise_ok_imp ?_ l h
  intro a b hab
  rw [Bool.not_eq_true'] at hab ⊢
  cases hcl : live_clash later a b
  · rfl
  · have h2 := live_clash_mono hle a b hcl
    rw [h2] at hab
    exact Bool.noConfusion hab

lemma all_filter {l : List Session} {p f : Session → Bool}
    (h : l.all f = true) : (l.filter p).all f = true := by
  rw [List.all_eq_true] at h ⊢
  exact fun x hx => h x (List.mem_of_mem_filter hx)

lemma pairwise_ok_filter {r : Session → Session → Bool}
    (p : Session → Bool) :
    ∀ l, pairwise_ok r l = true → pairwise_ok r (l.filter p) = true := by
  intro l
  induction l with
  | nil => intro _; rfl
  | cons a rest ih =>
    intro hl
    rw [pairwise_ok, Bool.and_eq_true] at hl
    rw [List.filter_cons]
    cases hp : p a
    · rw [if_neg (by simp)]
      exact ih hl.2
    · rw [if_pos rfl, pairwise_ok, Bool.and_eq_true]
      exact ⟨all_filter hl.1, ih hl.2⟩

lemma pairwise_ok_append_one {r : Session → Session → Bool} {s : Session} :
    ∀ l, pairwise_ok r l = true → l.all (fun a => r a s) = true →
      pairwise_ok r (l ++ [s]) = true := by
  intro l
  induction l with
  | nil =>
    intro _ h2
    rw [List.nil_append, pairwise_ok, Bool.and_eq_true]
    exact ⟨rfl, rfl⟩
  | cons a rest ih =>
    intro h1 h2
    rw [pairwise_ok, Bool.and_eq_true] at h1
    rw [List.all_cons, Bool.and_eq_true] at h2
    rw [List.cons_append, pairwise_ok, Bool.and_eq_true]
    refine ⟨?_, ih h1.2 h2.2⟩
    rw [List.all_append]
    simp [h1.1, h2.1]

lemma mem_revalidate_first {now : Int} {t : String} :
    ∀ {l : List Session} {b : Session}, b ∈ revalidate_first now t l →
      b ∈ l ∨ ∃ a, a ∈ l ∧ (a.is_alive now && a.token == t) = true ∧
        b = { a with last_access := now } := by
  intro l
  induction l with
  | nil => intro b hb; exact absurd hb (by simp [revalidate_first])
  | cons s rest ih =>
    intro b hb
    rw [revalidate_first] at hb
    by_cases hc : (s.is_alive now && s.token == t) = true
    · rw [if_pos hc] at hb
      rcases List.mem_cons.mp hb with hb | hb
      · exact Or.inr ⟨s, List.mem_cons_self s rest, hc, hb⟩
      · exact Or.inl (List.mem_cons_of_mem _ hb)
    · rw [if_neg hc] at hb
      rcases List.mem_cons.mp hb with hb | hb
      · exact Or.inl (by rw [hb]; exact List.mem_cons_self s rest)
      · rcases ih hb with hm | ⟨a, ham, hca, he2⟩
        · exact Or.inl (List.mem_cons_of_mem _ hm)
        · exact Or.inr ⟨a, List.mem_cons_of_mem _ ham, hca, he2⟩

lemma no_dup_revalidate_first {now : Int} {t : String} :
    ∀ l, no_dup_live now l = true →
      no_dup_live now (revalidate_first now t l) = true := by
  intro l
  induction l with
  | nil => intro h; exact h
  | cons s rest ih =>
    intro h
    rw [no_dup_live, pairwise_ok, Bool.and_eq_true] at h
    obtain ⟨hall, hrest⟩ := h
    rw [revalidate_first]
    by_cases hc : (s.is_alive now && s.token == t) = true
    · rw [if_pos hc]
      rw [no_dup_live, pairwise_ok, Bool.and_eq_true]
      refine ⟨?_, hrest⟩
      rw [List.all_eq_true]
      intro b hb
      rw [Bool.not_eq_true']
      cases hcl : live_clash now { s with last_access := now } b
      · rfl
      · exfalso
        simp only [live_clash, Bool.and_eq_true, beq_iff_eq] at hcl
        rw [Bool.and_eq_true] at hc
        have hrb := List.all_eq_true.mp hall b hb
        rw [Bool.not_eq_true'] at hrb
        have h3 : live_clash now s b = true := by
          simp only [live_clash, Bool.and_eq_true, beq_iff_eq]
          exact ⟨⟨hc.1, hcl.1.2⟩, hcl.2⟩
        rw [h3] at hrb
        exact Bool.noConfusion hrb
    · rw [if_neg hc]
      rw [no_dup_live, pairwise_ok, Bool.and_eq_true]
      refine ⟨?_, ih hrest⟩
      rw [List.all_eq_true]
      intro b hb
      rcases mem_revalidate_first hb with hbm | ⟨a, ham, hca, hbe⟩
      · exact List.all_eq_true.mp hall b hbm
      · rw [Bool.not_eq_true']
        cases hcl : live_clash now s b
        · rfl
        · exfalso
          rw [hbe] at hcl
          simp only [live_clash, Bool.and_eq_true, beq_iff_eq] at hcl
          rw [Bool.and_eq_true] at hca
          have hra := List.all_eq_true.mp hall a ham
          rw [Bool.not_eq_true'] at hra
          have h3 : live_clash now s a = true := by
            simp only [live_clash, Bool.and_eq_true, beq_iff_eq]
            exact ⟨⟨hcl.1.1, hca.1⟩, hcl.2⟩
          rw [h3] at hra
          exact Bool.noConfusion hra

lemma get_local_token {m : SessionManager} {t : String} {s : Session}
    (h : get_local_session_from_db m t = some s) : s.token = t := by
  unfold get_local_session_from_db at h
  split at h
  · exact Option.noConfusion h
  · split at h
    · exact Option.noConfusion h
    · split at h
      · exact Option.noConfusion h
      · injection h with h2
        rw [← h2]

lemma get_session_enabled_preserves {m : SessionManager} {now : Int}
    {t : String} (h : no_dup_live now m.sessions = true) :
    no_dup_live now (get_session_enabled m now t).2.sessions = true := by
  unfold get_session_enabled
  split
  · exact h
  next hfind =>
    split
    next s hdb =>
      split
      next halive =>
        show no_dup_live now (m.sessions ++ [s]) = true
        refine pairwise_ok_append_one _ h ?_
        rw [List.all_eq_true]
        intro x hx
        rw [Bool.not_eq_true']
        cases hcl : live_clash now x s
        · rfl
        · exfalso
          have hfa := List.find?_eq_none.mp hfind x hx
          simp only [live_clash, Bool.and_eq_true, beq_iff_eq] at hcl
          apply hfa
          have hts : s.token = t := get_local_token hdb
          rw [Bool.and_eq_true, beq_iff_eq]
          exact ⟨hcl.1.1, by rw [hcl.2, hts]⟩
      next hdead =>
        exact pairwise_ok_filter _ _ h
    next hdb =>
      exact pairwise_ok_filter _ _ h

lemma get_session_preserves {m : SessionManager} {now : Int} {t : String}
    (h : no_dup_live now m.sessions = true) :
    no_dup_live now (get_session m now t).2.sessions = true := by
  unfold get_session
  split
  · exact h
  · exact get_session_enabled_preserves h

lemma get_session_eq_enabled {m : SessionManager} {now : Int} {t : String}
    (he : m.enabled = true) :
    get_session m now t = get_session_enabled m now t := by
  unfold get_session
  rw [he]
  rfl

lemma get_session_enabled_none {m : SessionManager} {now : Int} {t : String}
    {m2 : SessionManager}
    (h : get_session_enabled m now t = (none, m2)) :
    m2.sessions = m.sessions.filter (fun s => s.token != t) := by
  unfold get_session_enabled at h
  split at h
  · injection h with h1 h2
    exact Option.noConfusion h1
  · split at h
    · split at h
      · injection h with h1 h2
        exact Option.noConfusion h1
      · injection h with h1 h2
        exact Option.noConfusion h1
    · injection h with h1 h2
      rw [← h2]
      rfl

lemma get_session_none {m : SessionManager} {now : Int} {t : String}
    {m2 : SessionManager} (he : m.enabled = true)
    (h : get_session m now t = (none, m2)) :
    m2.sessions = m.sessions.filter (fun s => s.token != t) := by
  rw [get_session_eq_enabled he] at h
  exact get_session_enabled_none h

lemma create_with_token_preserves {m : SessionManager} {now : Int}
    {t : String} {v : PyValidation} (he : m.enabled = true)
    (h : no_dup_live now m.sessions = true) :
    no_dup_live now (create_with_token m now t v).2.sessions = true := by
  unfold create_with_token
  split
  next s m3 heq =>
    have h3 : no_dup_live now m3.sessions = true := by
      have h4 := get_session_preserves (t := t) h
      rw [heq] at h4
      exact h4
    split
    · exact no_dup_revalidate_first _ h3
    · exact h3
  next m3 heq =>
    have h3 : no_dup_live now m3.sessions = true := by
      have h4 := get_session_preserves (t := t) h
      rw [heq] at h4
      exact h4
    have hflt := get_session_none he heq
    refine pairwise_ok_append_one _ h3 ?_
    rw [List.all_eq_true]
    intro x hx
    rw [hflt] at hx
    have hxt : (x.token != t) = true := (List.mem_filter.mp hx).2
    have hbeq : (x.token == t) = false := by
      rw [beq_eq_false_iff_ne]
      simpa using hxt
    rw [Bool.not_eq_true']
    simp [live_clash, hbeq]

lemma create_validated_preserves {m : SessionManager} {now : Int}
    {f a : String} (he : m.enabled = true)
    (h : no_dup_live now m.sessions = true) :
    no_dup_live now (create_validated m now f a).2.sessions = true := by
  unfold create_validated
  split
  · exact h
  · exact h
  · split
    · exact h
    · exact create_with_token_preserves he h

lemma cleanup_fold_preserves {now : Int} :
    ∀ (toks : List String) (m : SessionManager),
      no_dup_live now m.sessions = true →
      no_dup_live now
        (toks.foldl (fun acc t => (invalidate acc t).2) m).sessions = true := by
  intro toks
  induction toks with
  | nil => intro m h; exact h
  | cons t ts ih =>
    intro m h
    rw [List.foldl_cons]
    exact ih _ (pairwise_ok_filter _ _ h)

lemma cleanup_preserves {m : SessionManager} {now now2 : Int}
    (h : no_dup_live now m.sessions = true) :
    no_dup_live now (cleanup_sessions m now2).sessions = true := by
  unfold cleanup_sessions
  exact cleanup_fold_preserves _ _ h

lemma bump_preserves {m : SessionManager} {now now2 : Int}
    (h : no_dup_live now m.sessions = true) :
    no_dup_live now (bump_and_cleanup m now2).sessions = true := by
  unfold bump_and_cleanup
  split
  · exact cleanup_preserves h
  · exact h

lemma cleanup_fold_enabled :
    ∀ (toks : List String) (m : SessionManager),
      (toks.foldl (fun acc t => (invalidate acc t).2) m).enabled =
        m.enabled := by
  intro toks
  induction toks with
  | nil => intro m; rfl
  | cons t ts ih =>
    intro m
    rw [List.foldl_cons]
    exact ih _

lemma bump_enabled (m : SessionManager) (now : Int) :
    (bump_and_cleanup m now).enabled = m.enabled := by
  unfold bump_and_cleanup cleanup_sessions
  split
  · exact cleanup_fold_enabled _ _
  · rfl

lemma create_preserves {m : SessionManager} {now : Int} {f a : String}
    (h : no_dup_live now m.sessions = true) :
    no_dup_live now (create_or_get_session m now f a).2.sessions = true := by
  unfold create_or_get_session
  cases hen : m.enabled
  · exact h
  · have he2 : (bump_and_cleanup m now).enabled = true := by
      rw [bump_enabled]
      exact hen
    exact create_validated_preserves he2 (bump_preserves h)

lemma apply_op_preserves {m : SessionManager} {t : Int} {op : Op}
    (h : at_most_one_live t m = true) (hle : t ≤ op.now) :
    at_most_one_live op.now (apply_op m op) = true := by
  cases op with
  | create n f a => exact create_preserves (no_dup_live_mono hle h)
  | get n tk => exact get_session_preserves (no_dup_live_mono hle h)
  | inval n tk => exact pairwise_ok_filter _ _ (no_dup_live_mono hle h)
  | cleanup n => exact cleanup_preserves (no_dup_live_mono hle h)

/-- C9: after any chronologically ordered sequence of
`create_or_get_session`, `get_session`, `invalidate` and cleanup operations
started from a state satisfying the single-live-session-per-token invariant,
the in-memory list still contains no two distinct records that share a token
and are both alive. -/
theorem c9_at_most_one_live_per_token :
    ∀ (ops : List Op) (m : SessionManager) (t : Int),
      at_most_one_live t m = true → chron t ops = true →
      at_most_one_live (end_time t ops) (run_ops m ops) = true := by
  intro ops
  induction ops with
  | nil => intro m t h _; exact h
  | cons op ops ih =>
    intro m t h hc
    rw [chron, Bool.and_eq_true, decide_eq_true_eq] at hc
    show at_most_one_live (end_time op.now ops)
      (ops.foldl apply_op (apply_op m op)) = true
    exact ih _ _ (apply_op_preserves h hc.1) hc.2

/-- C9 witness: an empty initial state, two logins of the same user (the
second reuses the durable token and revalidates), a lookup, an explicit
invalidation and a pruning pass, in chronological order. -/
theorem c9_witness :
    at_most_one_live 0 c9_mgr = true ∧
    chron 0 c9_ops = true ∧
    at_most_one_live (end_time 0 c9_ops) (run_ops c9_mgr c9_ops) = true :=
  ⟨by decide, by decide,
   c9_at_most_one_live_per_token c9_ops c9_mgr 0 (by decide) (by decide)⟩

end CodeChecker
